import Mathlib

/-
Shallow embedding of the uniter mode state machine of
src/worker/uniter/modes.go (package uniter).

Modelling conventions:
* Go machine state that modes read (`u.operationState()`) becomes the
  `State` structure; collaborator calls whose results the code branches on
  (feature flag, leadership tracker claim, operation executor outcomes,
  status setting, watcher events) are supplied by explicit environment
  records and event scripts, one script element per select-loop iteration.
* The operation executor (`u.runOperation`) lives in the operation package,
  which is not part of the sources here; its effect on persisted state is
  modelled from the spec (see `execCommit`).  Each call site receives the
  executor's error result (`Option Err`, `none` meaning success) from the
  environment or the script element that triggered it.
* Go nil-pointer dereferences of `opState.Hook` are modelled by the
  distinguished result `ModeResult.panicked`; a select statement whose
  channels never fire inside the modelled script is `ModeResult.blocked`.
* `errors.Trace`/`errors.Annotatef` wrap errors transparently for
  `errors.Cause`, so they are modelled as the identity on errors.
-/

namespace operation

/-- Modelled from the spec: the operation package (not under the sources)
defines Kind as a string-typed enumeration with members Install, RunHook,
RunAction, Upgrade, Continue; modes.go compares it against these constants
and keeps a default branch for any other string. -/
abbrev Kind := String

def Install : Kind := "install"

def RunHook : Kind := "run-hook"

def RunAction : Kind := "run-action"

def Upgrade : Kind := "upgrade"

def Continue : Kind := "continue"

/-- Modelled from the spec: Step is meaningful only when Kind=RunHook and
ranges over Pending, Queued, Done. -/
inductive Step
  | Pending
  | Queued
  | Done
deriving DecidableEq, Repr

end operation

namespace hooks

/-- Hook kinds (gopkg.in/juju/charm.v4/hooks), string-typed. -/
abbrev Kind := String

def Install : Kind := "install"

def Start : Kind := "start"

def ConfigChanged : Kind := "config-changed"

def Stop : Kind := "stop"

def MeterStatusChanged : Kind := "meter-status-changed"

def CollectMetrics : Kind := "collect-metrics"

/-- A hook kind is a relation hook when it is one of the four relation
lifecycle kinds. -/
def IsRelation (k : Kind) : Bool :=
  k == "relation-joined" || k == "relation-changed" ||
    k == "relation-departed" || k == "relation-broken"

end hooks

/-- hook.Info: the immutable hook descriptor recorded in operation state. -/
structure HookInfo where
  Kind : hooks.Kind
  RelationId : Int := 0
  RemoteUnit : String := ""
deriving DecidableEq, Repr

/-- The persisted Operation State read by every mode via
`u.operationState()`.  `Hook` is a pointer in the source, hence `Option`. -/
structure State where
  Kind : operation.Kind
  Step : operation.Step
  Hook : Option HookInfo
  CharmURL : String
  ActionId : String
  Started : Bool
  Leader : Bool
  CollectMetricsTime : Int
deriving DecidableEq, Repr

/-- Errors distinguished by the mode logic.  `fatal` covers every other
error value (errors.Errorf results and collaborator failures). -/
inductive Err
  | ErrDying
  | ErrTerminateAgent
  | ErrCannotAcceptLeadership
  | ErrHookFailed
  | fatal (msg : String)
deriving DecidableEq, Repr

/-- Mode identity: the source represents a mode as a function value; the
modes are distinguished only by which function it is plus its captured
charm URL, so a tagged variant is the faithful shallow embedding. -/
inductive Mode
  | Continue
  | Installing (curl : String)
  | Upgrading (curl : String)
  | Terminating
  | Abide
  | HookError
  | Conflicted (curl : String)
deriving DecidableEq, Repr

/-- The operations that the mode logic can ask the executor to run,
tagged with the parameters captured by the corresponding factory. -/
inductive Op
  | install (curl : String)
  | upgrade (curl : String)
  | runHook (hi : HookInfo)
  | retryHook (hi : HookInfo)
  | skipHook (hi : HookInfo)
  | simpleRunHook (k : hooks.Kind)
  | action (id : String)
  | acceptLeadership
  | resignLeadership
  | updateRelations (ids : List Int)
  | updateStorage (tags : List String)
  | revertUpgrade (curl : String)
  | resolvedUpgrade (curl : String)
deriving DecidableEq, Repr

/-- Result of running a mode function: the next mode, an error return, a
Go runtime panic (nil `opState.Hook` dereference), or a select that is
still blocked when the supplied event script ends. -/
inductive ModeResult
  | next (m : Mode)
  | err (e : Err)
  | panicked
  | blocked
deriving DecidableEq, Repr

/-- What one invocation of a mode function produced: its result, the
ordered trace of operations handed to the executor, and the persisted
state afterwards. -/
structure Outcome where
  res : ModeResult
  ops : List Op
  st : State
deriving DecidableEq, Repr

/-- Prefix an outcome's operation trace with the operations already run. -/
def Outcome.withOps (o : Outcome) (pre : List Op) : Outcome :=
  ⟨o.res, pre ++ o.ops, o.st⟩

/-- Modelled from the spec: the Operation Executor (operation package, not
under the sources) persists Operation State transactionally as a side
effect of a successfully completed operation — a completed run/retry/skip
hook operation persists Kind=Continue with that hook recorded, and only
committed accept/resign-leadership operations mutate the Leader flag.  The
spec does not describe commits for the remaining operations, so they leave
the modelled state unchanged; on a failed operation the state is kept. -/
def execCommit : Op → State → State
  | .runHook hi, s => { s with Kind := operation.Continue, Hook := some hi }
  | .retryHook hi, s => { s with Kind := operation.Continue, Hook := some hi }
  | .skipHook hi, s => { s with Kind := operation.Continue, Hook := some hi }
  | .simpleRunHook k, s =>
      { s with Kind := operation.Continue, Hook := some { Kind := k } }
  | .acceptLeadership, s => { s with Leader := true }
  | .resignLeadership, s => { s with Leader := false }
  | _, s => s

/-- continueAfter: run the operation and return ModeContinue on success,
or the traced error on failure. -/
def continueAfter (op : Op) (opErr : Option Err) (s : State) : Outcome :=
  match opErr with
  | none => ⟨.next .Continue, [op], execCommit op s⟩
  | some e => ⟨.err e, [op], s⟩

/-- Environment of one ModeContinue pass: the leader-election feature
flag, the metrics-collector initialization result, the leadership
tracker's claim result, and the executor outcomes for the (at most one)
leadership operation and the (at most one) dispatch operation. -/
structure ContinueEnv where
  leaderFlag : Bool
  initMetricsErr : Option Err
  claimLeader : Bool
  leaderOpErr : Option Err
  dispatchOpErr : Option Err
deriving DecidableEq, Repr

/-- The ordinary Kind/Step dispatch at the bottom of ModeContinue
(the switch on opState.Kind), entered with the trace `pre` of operations
already run by the leadership reconciliation. -/
def dispatchContinue (s : State) (opErr : Option Err) (pre : List Op) : Outcome :=
  if s.Kind = operation.RunAction then
    match s.Hook with
    | none => ⟨.panicked, pre, s⟩
    | some hi => (continueAfter (.skipHook hi) opErr s).withOps pre
  else if s.Kind = operation.RunHook then
    match s.Step, s.Hook with
    | .Pending, none => ⟨.panicked, pre, s⟩
    | .Pending, some _ => ⟨.next .HookError, pre, s⟩
    | .Queued, none => ⟨.panicked, pre, s⟩
    | .Queued, some hi => (continueAfter (.runHook hi) opErr s).withOps pre
    | .Done, none => ⟨.panicked, pre, s⟩
    | .Done, some hi => (continueAfter (.skipHook hi) opErr s).withOps pre
  else if s.Kind = operation.Continue then
    match s.Hook with
    | none => ⟨.panicked, pre, s⟩
    | some hi =>
      if hi.Kind = hooks.Stop then ⟨.next .Terminating, pre, s⟩
      else ⟨.next .Abide, pre, s⟩
  else ⟨.err (.fatal ("unknown operation kind " ++ s.Kind)), pre, s⟩

/-- ModeContinue: resume install/upgrade from persisted state, otherwise
initialize the metrics collector, reconcile leadership when the feature
flag is enabled, and fall through to ordinary Kind/Step dispatch. -/
def ModeContinue (s : State) (env : ContinueEnv) : Outcome :=
  if s.Kind = operation.Install then ⟨.next (.Installing s.CharmURL), [], s⟩
  else if s.Kind = operation.Upgrade then ⟨.next (.Upgrading s.CharmURL), [], s⟩
  else
    match env.initMetricsErr with
    | some e => ⟨.err e, [], s⟩
    | none =>
      if env.leaderFlag && env.claimLeader != s.Leader then
        let op := if env.claimLeader then Op.acceptLeadership else Op.resignLeadership
        match env.leaderOpErr with
        | none => ⟨.next .Continue, [op], execCommit op s⟩
        | some e =>
          if e = .ErrCannotAcceptLeadership then
            dispatchContinue s env.dispatchOpErr [op]
          else ⟨.err e, [op], s⟩
      else dispatchContinue s env.dispatchOpErr []

/-- ModeInstalling: set installing status, run the install operation,
return ModeContinue. -/
def ModeInstalling (curl : String) (s : State) (setStatusErr opErr : Option Err) : Outcome :=
  match setStatusErr with
  | some e => ⟨.err e, [], s⟩
  | none => continueAfter (.install curl) opErr s

/-- ModeUpgrading: run the upgrade operation, return ModeContinue. -/
def ModeUpgrading (curl : String) (s : State) (opErr : Option Err) : Outcome :=
  continueAfter (.upgrade curl) opErr s

/-- One select case of the ModeTerminating wait loop. -/
inductive TermCase
  | tombDying
  | actionEvent (id : String)
  | watchClosed
  | unitChange
deriving DecidableEq, Repr

/-- One iteration of the ModeTerminating loop: which case fired, whether
the tomb's dying channel was also ready at that select, and the
collaborator results consulted by the handler of that case. -/
structure TermStep where
  tcase : TermCase
  dyingReady : Bool
  opErr : Option Err
  refreshErr : Option Err
  hasSubsErr : Option Err
  hasSubs : Bool
  ensureDeadErr : Option Err
deriving DecidableEq, Repr

/-- The select loop of ModeTerminating. -/
def terminatingLoop (s : State) : List TermStep → Outcome
  | [] => ⟨.blocked, [], s⟩
  | st :: rest =>
    match st.tcase with
    | .tombDying => ⟨.err .ErrDying, [], s⟩
    | .actionEvent id =>
      match st.opErr with
      | some e => ⟨.err e, [.action id], s⟩
      | none => (terminatingLoop (execCommit (.action id) s) rest).withOps [.action id]
    | .watchClosed => ⟨.err (.fatal ("watcher closed")), [], s⟩
    | .unitChange =>
      match st.refreshErr with
      | some e => ⟨.err e, [], s⟩
      | none =>
        match st.hasSubsErr with
        | some e => ⟨.err e, [], s⟩
        | none =>
          if st.hasSubs then terminatingLoop s rest
          else
            match st.ensureDeadErr with
            | some e => ⟨.err e, [], s⟩
            | none => ⟨.err .ErrTerminateAgent, [], s⟩

/-- Environment of the ModeTerminating preamble. -/
structure TermEnv where
  setStatusErr : Option Err
  watchErr : Option Err
deriving DecidableEq, Repr

/-- ModeTerminating: set stopping status, watch the unit, then loop on
actions and unit changes until the unit has no subordinates, and mark it
dead.  The persisted operation state is never inspected. -/
def ModeTerminating (s : State) (env : TermEnv) (script : List TermStep) : Outcome :=
  match env.setStatusErr with
  | some e => ⟨.err e, [], s⟩
  | none =>
    match env.watchErr with
    | some e => ⟨.err e, [], s⟩
    | none => terminatingLoop s script

/-- One select case of the modeAbideDyingLoop wait. -/
inductive DyingCase
  | tombDying
  | actionEvent (id : String)
  | configEvent
  | leaderSettingsEvent
  | relationHook (hi : HookInfo)
deriving DecidableEq, Repr

/-- One iteration of the dying loop: the relation-set emptiness read at
the top of the iteration, then (when not empty) the fired case, whether
the dying channel was also ready, and the executor outcome. -/
structure DyingStep where
  relationsEmpty : Bool
  dcase : DyingCase
  dyingReady : Bool
  opErr : Option Err
deriving DecidableEq, Repr

/-- The wait loop of modeAbideDyingLoop: while relations remain, consume
one event and run its operation; once the relation set is empty, run the
stop hook and return ModeContinue. -/
def dyingLoop (s : State) (stopOpErr : Option Err) : List DyingStep → Outcome
  | [] => ⟨.blocked, [], s⟩
  | st :: rest =>
    if st.relationsEmpty then continueAfter (.simpleRunHook hooks.Stop) stopOpErr s
    else
      match st.dcase with
      | .tombDying => ⟨.err .ErrDying, [], s⟩
      | .actionEvent id =>
        match st.opErr with
        | some e => ⟨.err e, [.action id], s⟩
        | none => (dyingLoop (execCommit (.action id) s) stopOpErr rest).withOps [.action id]
      | .configEvent =>
        match st.opErr with
        | some e => ⟨.err e, [.simpleRunHook hooks.ConfigChanged], s⟩
        | none =>
          (dyingLoop (execCommit (.simpleRunHook hooks.ConfigChanged) s) stopOpErr rest).withOps
            [.simpleRunHook hooks.ConfigChanged]
      | .leaderSettingsEvent =>
        match st.opErr with
        | some e => ⟨.err e, [.simpleRunHook ("leader-settings-changed")], s⟩
        | none =>
          (dyingLoop (execCommit (.simpleRunHook ("leader-settings-changed")) s) stopOpErr rest).withOps
            [.simpleRunHook ("leader-settings-changed")]
      | .relationHook hi =>
        match st.opErr with
        | some e => ⟨.err e, [.runHook hi], s⟩
        | none => (dyingLoop (execCommit (.runHook hi) s) stopOpErr rest).withOps [.runHook hi]

/-- Environment of the modeAbideDyingLoop preamble. -/
structure DyingEnv where
  leaderFlag : Bool
  refreshErr : Option Err
  destroySubsErr : Option Err
  setDyingErr : Option Err
  resignOpErr : Option Err
  stopOpErr : Option Err
deriving DecidableEq, Repr

/-- modeAbideDyingLoop: refresh the unit, destroy subordinates, mark
relations dying, resign leadership when enabled and held, then enter the
dying wait loop. -/
def modeAbideDyingLoop (s : State) (env : DyingEnv) (script : List DyingStep) : Outcome :=
  match env.refreshErr with
  | some e => ⟨.err e, [], s⟩
  | none =>
    match env.destroySubsErr with
    | some e => ⟨.err e, [], s⟩
    | none =>
      match env.setDyingErr with
      | some e => ⟨.err e, [], s⟩
      | none =>
        if env.leaderFlag && s.Leader then
          match env.resignOpErr with
          | some e => ⟨.err e, [.resignLeadership], s⟩
          | none =>
            (dyingLoop (execCommit .resignLeadership s) env.stopOpErr script).withOps
              [.resignLeadership]
        else dyingLoop s env.stopOpErr script

/-- One select case of the modeAbideAliveLoop wait. -/
inductive AliveCase
  | tombDying
  | unitDying
  | upgradeEvent (curl : String)
  | relationsEvent (ids : List Int)
  | actionEvent (id : String)
  | storageEvent (tags : List String)
  | configEvent
  | meterStatusEvent
  | collectMetricsSignal
  | relationHook (hi : HookInfo)
  | storageHook (hi : HookInfo)
  | leaderElected
  | leaderDeposed
  | leaderSettingsEvent
deriving DecidableEq, Repr

/-- One iteration of the alive loop. -/
structure AliveStep where
  acase : AliveCase
  dyingReady : Bool
  opErr : Option Err
deriving DecidableEq, Repr

/-- The operation each alive-loop case queues (none for the three cases
that leave the loop instead of running an operation). -/
def aliveOpOf : AliveCase → Option Op
  | .tombDying => none
  | .unitDying => none
  | .upgradeEvent _ => none
  | .relationsEvent ids => some (.updateRelations ids)
  | .actionEvent id => some (.action id)
  | .storageEvent tags => some (.updateStorage tags)
  | .configEvent => some (.simpleRunHook hooks.ConfigChanged)
  | .meterStatusEvent => some (.simpleRunHook hooks.MeterStatusChanged)
  | .collectMetricsSignal => some (.simpleRunHook hooks.CollectMetrics)
  | .relationHook hi => some (.runHook hi)
  | .storageHook hi => some (.runHook hi)
  | .leaderElected => some .acceptLeadership
  | .leaderDeposed => some .resignLeadership
  | .leaderSettingsEvent => some (.simpleRunHook ("leader-settings-changed"))

/-- modeAbideAliveLoop: consume one ready event per iteration and run its
operation; leave the loop on cancellation, unit death (entering the dying
loop) or an upgrade request. -/
def aliveLoop (s : State) (denv : DyingEnv) (dscript : List DyingStep) :
    List AliveStep → Outcome
  | [] => ⟨.blocked, [], s⟩
  | st :: rest =>
    match st.acase with
    | .tombDying => ⟨.err .ErrDying, [], s⟩
    | .unitDying => modeAbideDyingLoop s denv dscript
    | .upgradeEvent curl => ⟨.next (.Upgrading curl), [], s⟩
    | c =>
      match aliveOpOf c with
      | none => ⟨.blocked, [], s⟩
      | some op =>
        match st.opErr with
        | some e => ⟨.err e, [op], s⟩
        | none => (aliveLoop (execCommit op s) denv dscript rest).withOps [op]

/-- Environment of the ModeAbide preamble. -/
structure AbideEnv where
  leaderFlag : Bool
  fixErr : Option Err
  ranLeaderSettingsChanged : Bool
  lsHookErr : Option Err
  ranConfigChanged : Bool
  configOpErr : Option Err
  startOpErr : Option Err
  setStatusErr : Option Err
  unitDyingNow : Bool
deriving DecidableEq, Repr

/-- The argument ModeAbide passes to WantLeaderSettingsEvents: events are
wanted for a non-leader when the feature flag is enabled, and always
disabled otherwise. -/
def abideWantLS (leaderFlag : Bool) (s : State) : Bool :=
  if leaderFlag then !s.Leader else false

/-- The tail of ModeAbide after the leadership-settings reconciliation:
guaranteed config-changed and start hooks, active status, then the alive
or dying event loop.  `sSnap` is the operation-state snapshot read at the
top of ModeAbide; `cur` is the persisted state as evolved by any
operation already run. -/
def abideMain (sSnap cur : State) (pre : List Op) (env : AbideEnv)
    (ascript : List AliveStep) (denv : DyingEnv) (dscript : List DyingStep) : Outcome :=
  if !env.ranConfigChanged then
    (continueAfter (.simpleRunHook hooks.ConfigChanged) env.configOpErr cur).withOps pre
  else if !sSnap.Started then
    (continueAfter (.simpleRunHook hooks.Start) env.startOpErr cur).withOps pre
  else
    match env.setStatusErr with
    | some e => ⟨.err e, pre, cur⟩
    | none =>
      if env.unitDyingNow then (modeAbideDyingLoop cur denv dscript).withOps pre
      else (aliveLoop cur denv dscript ascript).withOps pre

/-- ModeAbide: reject any state other than Kind=Continue as insane, fix
the deployer, reconcile the leader-settings subscription and (when the
feature flag is enabled and the unit is a non-leader that has not yet run
it) run the leader-settings-changed hook, then continue with abideMain. -/
def ModeAbide (s : State) (env : AbideEnv) (ascript : List AliveStep)
    (denv : DyingEnv) (dscript : List DyingStep) : Outcome :=
  if s.Kind ≠ operation.Continue then
    ⟨.err (.fatal ("insane uniter state: " ++ s.Kind)), [], s⟩
  else
    match env.fixErr with
    | some e => ⟨.err e, [], s⟩
    | none =>
      if env.leaderFlag then
        if !s.Leader && !env.ranLeaderSettingsChanged then
          match env.lsHookErr with
          | some e => ⟨.err e, [.simpleRunHook ("leader-settings-changed")], s⟩
          | none =>
            abideMain s (execCommit (.simpleRunHook ("leader-settings-changed")) s)
              [.simpleRunHook ("leader-settings-changed")] env ascript denv dscript
        else abideMain s s [] env ascript denv dscript
      else abideMain s s [] env ascript denv dscript

/-- Modelled from the spec: params resolved-mode value for retrying the
failed hook (apiserver params package, not under the sources). -/
def ResolvedRetryHooks : String := "retry-hooks"

/-- Modelled from the spec: params resolved-mode value for skipping the
failed hook. -/
def ResolvedNoHooks : String := "no-hooks"

/-- One select case of the ModeHookError wait loop. -/
inductive HookErrCase
  | tombDying
  | upgradeEvent (curl : String)
  | resolvedEvent (rm : String)
  | leaderDeposed
deriving DecidableEq, Repr

/-- One iteration of the ModeHookError loop: the status re-assertion
outcome at the top of the iteration, then the fired case, whether the
dying channel was also ready, and the executor outcome. -/
structure HookErrStep where
  setStatusErr : Option Err
  hcase : HookErrCase
  dyingReady : Bool
  opErr : Option Err
deriving DecidableEq, Repr

/-- The wait loop of ModeHookError for failed hook `hi`.  `deposedArmed`
records whether the leader-deposed wait is armed (it is disarmed after
firing once). -/
def hookErrLoop (hi : HookInfo) (s : State) (deposedArmed : Bool) :
    List HookErrStep → Outcome
  | [] => ⟨.blocked, [], s⟩
  | st :: rest =>
    match st.setStatusErr with
    | some e => ⟨.err e, [], s⟩
    | none =>
      match st.hcase with
      | .tombDying => ⟨.err .ErrDying, [], s⟩
      | .upgradeEvent curl => ⟨.next (.Upgrading curl), [], s⟩
      | .resolvedEvent rm =>
        match (if rm = ResolvedRetryHooks then some (Op.retryHook hi)
               else if rm = ResolvedNoHooks then some (Op.skipHook hi)
               else none) with
        | none => ⟨.err (.fatal ("unknown resolved mode " ++ rm)), [], s⟩
        | some op =>
          match st.opErr with
          | some e =>
            if e = .ErrHookFailed then (hookErrLoop hi s deposedArmed rest).withOps [op]
            else ⟨.err e, [op], s⟩
          | none => ⟨.next .Continue, [op], execCommit op s⟩
      | .leaderDeposed =>
        match st.opErr with
        | some e => ⟨.err e, [.resignLeadership], s⟩
        | none => (hookErrLoop hi (execCommit .resignLeadership s) false rest).withOps
            [.resignLeadership]

/-- Environment of the ModeHookError preamble. -/
structure HookErrEnv where
  leaderFlag : Bool
  relNameErr : Option Err
deriving DecidableEq, Repr

/-- ModeHookError: reject any state other than RunHook+Pending as insane,
build the status text (looking up the relation name when the failed hook
is a relation hook), then loop on resolution, upgrade and deposition
events. -/
def ModeHookError (s : State) (env : HookErrEnv) (script : List HookErrStep) : Outcome :=
  if s.Kind ≠ operation.RunHook ∨ s.Step ≠ operation.Step.Pending then
    ⟨.err (.fatal ("insane uniter state")), [], s⟩
  else
    match s.Hook with
    | none => ⟨.panicked, [], s⟩
    | some hi =>
      match hooks.IsRelation hi.Kind, env.relNameErr with
      | true, some e => ⟨.err e, [], s⟩
      | _, _ => hookErrLoop hi s (env.leaderFlag && s.Leader) script

/-- The single select case of ModeConflicted. -/
inductive ConfCase
  | tombDying
  | upgradeEvent (curl : String)
  | resolvedEvent
deriving DecidableEq, Repr

/-- The fired ModeConflicted case and whether the dying channel was also
ready at that select. -/
structure ConfStep where
  ccase : ConfCase
  dyingReady : Bool
deriving DecidableEq, Repr

/-- Environment of ModeConflicted. -/
structure ConfEnv where
  setStatusErr : Option Err
  opErr : Option Err
deriving DecidableEq, Repr

/-- ModeConflicted for current charm URL `curl`: set upgrade-failed error
status, then wait once for a forced upgrade (revert to the new URL) or a
resolution command (resolve the current URL), and continue after that
operation. -/
def ModeConflicted (curl : String) (s : State) (env : ConfEnv)
    (step : Option ConfStep) : Outcome :=
  match env.setStatusErr with
  | some e => ⟨.err e, [], s⟩
  | none =>
    match step with
    | none => ⟨.blocked, [], s⟩
    | some st =>
      match st.ccase with
      | .tombDying => ⟨.err .ErrDying, [], s⟩
      | .upgradeEvent curl2 => continueAfter (.revertUpgrade curl2) env.opErr s
      | .resolvedEvent => continueAfter (.resolvedUpgrade curl) env.opErr s

/-- An operation is a leadership operation when it is accept- or
resign-leadership. -/
def isLeadershipOp : Op → Bool
  | .acceptLeadership => true
  | .resignLeadership => true
  | _ => false

/-- The leader-settings-changed hook operation. -/
def leaderSettingsOp : Op := .simpleRunHook ("leader-settings-changed")

/-- Go select semantics: a fired case is a possible resolution of the
select only if it was ready; the runtime gives no priority among ready
cases.  A step firing the tomb-dying case therefore requires the dying
channel ready, and the leadership cases require their channels to be
armed, which in the alive loop depends on the feature flag and the
current Leader flag, and for leader-settings events on the current
want-subscription. -/
def aliveStepOKb (leaderFlag wantLS : Bool) (s : State) (st : AliveStep) : Bool :=
  (!(st.acase == .tombDying) || st.dyingReady) &&
    (!(st.acase == .leaderElected) || (leaderFlag && !s.Leader)) &&
    (!(st.acase == .leaderDeposed) || (leaderFlag && s.Leader)) &&
    (!(st.acase == .leaderSettingsEvent) || wantLS)

/-- The state after one alive-loop iteration: committed when its
operation succeeded, unchanged otherwise. -/
def aliveNextState (s : State) (st : AliveStep) : State :=
  match aliveOpOf st.acase, st.opErr with
  | some op, none => execCommit op s
  | _, _ => s

/-- Validity of an alive-loop script, threading the evolving state
through the readiness conditions of each step. -/
def aliveScriptOKb (leaderFlag wantLS : Bool) : State → List AliveStep → Bool
  | _, [] => true
  | s, st :: rest =>
    aliveStepOKb leaderFlag wantLS s st &&
      aliveScriptOKb leaderFlag wantLS (aliveNextState s st) rest

/-- Readiness conditions for one dying-loop iteration. -/
def dyingStepOKb (wantLS : Bool) (st : DyingStep) : Bool :=
  (!(st.dcase == .tombDying) || st.dyingReady) &&
    (!(st.dcase == .leaderSettingsEvent) || wantLS)

/-- Validity of a dying-loop script. -/
def dyingScriptOKb (wantLS : Bool) (script : List DyingStep) : Bool :=
  script.all (dyingStepOKb wantLS)

/-- Readiness conditions for a ModeHookError script: the leader-deposed
case can fire only while armed, and firing disarms it. -/
def hookErrScriptOKb (deposedArmed : Bool) : List HookErrStep → Bool
  | [] => true
  | st :: rest =>
    ((!(st.hcase == .tombDying) || st.dyingReady) &&
        (!(st.hcase == .leaderDeposed) || deposedArmed)) &&
      hookErrScriptOKb (deposedArmed && !(st.hcase == .leaderDeposed)) rest

/-- An operation is a leadership operation or the leader-settings-changed
hook: the operations that must never run while the LeaderElection feature
flag is disabled. -/
def nonLeaderOp (op : Op) : Bool :=
  !isLeadershipOp op && !(op == leaderSettingsOp)

/-- Whether a mode result is an error return. -/
def ModeResult.isError : ModeResult → Bool
  | .err _ => true
  | _ => false

/-- The operation dispatched by one non-terminal dying-loop case. -/
def dyingOpOf : DyingCase → Option Op
  | .tombDying => none
  | .actionEvent id => some (.action id)
  | .configEvent => some (.simpleRunHook hooks.ConfigChanged)
  | .leaderSettingsEvent => some (.simpleRunHook ("leader-settings-changed"))
  | .relationHook hi => some (.runHook hi)

/-- A baseline persisted state for the concrete checks: a steady-state
non-leader unit that has started and last ran the start hook. -/
def stBase : State :=
  ⟨operation.Continue, .Queued, some ⟨"start", 0, ""⟩, "cs:wp-1", "", true, false, 0⟩

/-- RunHook+Pending state: a failed hook awaiting resolution. -/
def stPend : State :=
  { stBase with Kind := operation.RunHook, Step := .Pending }

/-- RunHook+Queued state: a hook queued for execution. -/
def stQueued : State :=
  { stBase with Kind := operation.RunHook, Step := .Queued }

/-- A ModeContinue environment with the leader-election flag disabled and
all collaborators succeeding. -/
def envOff : ContinueEnv := ⟨false, none, false, none, none⟩

/-- A ModeContinue environment with the flag enabled, the tracker
claiming leadership (disagreeing with stBase.Leader = false), and all
operations succeeding. -/
def envLead : ContinueEnv := ⟨true, none, true, none, none⟩

/-- C1: for every persisted state with Kind=Install, ModeContinue returns
the Installing mode for the persisted CharmURL, and with Kind=Upgrade the
Upgrading mode, running no operation and leaving the state untouched, so
re-invocation re-enters the same mode for the same charm URL. -/
theorem c1_continue_resumes_deploy (s : State) (env : ContinueEnv) :
    (s.Kind = operation.Install →
      ModeContinue s env = ⟨.next (.Installing s.CharmURL), [], s⟩) ∧
    (s.Kind = operation.Upgrade →
      ModeContinue s env = ⟨.next (.Upgrading s.CharmURL), [], s⟩) := by
  constructor <;> intro h <;>
    simp [ModeContinue, h, operation.Install, operation.Upgrade]

/-- C1 witness at concrete install and upgrade states. -/
theorem c1_witness :
    ModeContinue { stBase with Kind := operation.Install } envOff =
      ⟨.next (.Installing ("cs:wp-1")), [], { stBase with Kind := operation.Install }⟩ ∧
    ModeContinue { stBase with Kind := operation.Upgrade } envOff =
      ⟨.next (.Upgrading ("cs:wp-1")), [], { stBase with Kind := operation.Upgrade }⟩ :=
  ⟨(c1_continue_resumes_deploy { stBase with Kind := operation.Install } envOff).1 rfl,
   (c1_continue_resumes_deploy { stBase with Kind := operation.Upgrade } envOff).2 rfl⟩

/-- The terminating wait loop never reads the persisted operation state:
its result and its operation trace are the same for any two states. -/
theorem terminatingLoop_state_blind (script : List TermStep) :
    ∀ s s' : State,
      (terminatingLoop s script).res = (terminatingLoop s' script).res ∧
      (terminatingLoop s script).ops = (terminatingLoop s' script).ops := by
  induction script with
  | nil => intro s s'; exact ⟨rfl, rfl⟩
  | cons st rest ih =>
    intro s s'
    cases hc : st.tcase with
    | tombDying => simp [terminatingLoop, hc]
    | actionEvent id =>
      cases ho : st.opErr with
      | some e => simp [terminatingLoop, hc, ho]
      | none =>
        have h := ih (execCommit (.action id) s) (execCommit (.action id) s')
        simp [terminatingLoop, hc, ho, Outcome.withOps, h.1, h.2]
    | watchClosed => simp [terminatingLoop, hc]
    | unitChange =>
      cases hr : st.refreshErr with
      | some e => simp [terminatingLoop, hc, hr]
      | none =>
        cases hs : st.hasSubsErr with
        | some e => simp [terminatingLoop, hc, hr, hs]
        | none =>
          cases hb : st.hasSubs with
          | true =>
            have h := ih s s'
            simp [terminatingLoop, hc, hr, hs, hb, h.1, h.2]
          | false =>
            cases he : st.ensureDeadErr with
            | some e => simp [terminatingLoop, hc, hr, hs, hb, he]
            | none => simp [terminatingLoop, hc, hr, hs, hb, he]

/-- C2 counterexample: at the RunHook+Pending state stPend, a ModeContinue
pass with the leadership feature enabled and a disagreeing tracker claim
runs an operation and returns ModeContinue, not HookError; and
ModeTerminating, far from rejecting the state as fatal, proceeds: with no
event it blocks waiting, and handed an action event it runs the action
operation without any error. -/
theorem c2_counterexample :
    (ModeContinue stPend envLead).res ≠ .next .HookError ∧
    (ModeContinue stPend envLead).ops = [Op.acceptLeadership] ∧
    (ModeTerminating stPend ⟨none, none⟩ []).res = .blocked ∧
    (ModeTerminating stPend ⟨none, none⟩
        [⟨.actionEvent ("a-1"), false, none, none, none, false, none⟩]).res.isError
      = false ∧
    (ModeTerminating stPend ⟨none, none⟩
        [⟨.actionEvent ("a-1"), false, none, none, none, false, none⟩]).ops
      = [Op.action ("a-1")] := by
  refine ⟨by decide, by decide, by decide, by decide, by decide⟩

/-- C2 amended: when the persisted state is RunHook+Pending with a
recorded hook, ModeContinue returns HookError without running any
operation provided the metrics-collector initialization succeeds and
leadership reconciliation does not intervene (feature disabled or tracker
agreeing with the persisted Leader flag); ModeAbide rejects any
non-Continue state — in particular this one — as a fatal insane-state
error; but ModeTerminating never inspects the operation state at all, so
it proceeds identically on this state as on any other. -/
theorem c2_amended_thm :
    (∀ (s : State) (hi : HookInfo) (env : ContinueEnv),
      s.Kind = operation.RunHook → s.Step = .Pending → s.Hook = some hi →
      env.initMetricsErr = none →
      (env.leaderFlag = false ∨ env.claimLeader = s.Leader) →
      ModeContinue s env = ⟨.next .HookError, [], s⟩) ∧
    (∀ (s : State) (env : AbideEnv) (ascript : List AliveStep)
        (denv : DyingEnv) (dscript : List DyingStep),
      s.Kind = operation.RunHook →
      ModeAbide s env ascript denv dscript =
        ⟨.err (.fatal ("insane uniter state: " ++ s.Kind)), [], s⟩) ∧
    (∀ (script : List TermStep) (env : TermEnv) (s s' : State),
      (ModeTerminating s env script).res = (ModeTerminating s' env script).res ∧
      (ModeTerminating s env script).ops = (ModeTerminating s' env script).ops) := by
  refine ⟨?_, ?_, ?_⟩
  · intro s hi env hk hstep hhook hmet hlead
    rcases hlead with hf | ha
    · simp [ModeContinue, dispatchContinue, hk, hstep, hhook, hmet, hf,
        operation.Install, operation.Upgrade, operation.RunAction, operation.RunHook]
    · simp [ModeContinue, dispatchContinue, hk, hstep, hhook, hmet, ha,
        operation.Install, operation.Upgrade, operation.RunAction, operation.RunHook]
  · intro s env ascript denv dscript hk
    simp [ModeAbide, hk, operation.RunHook, operation.Continue]
  · intro script env s s'
    cases h1 : env.setStatusErr with
    | some e => simp [ModeTerminating, h1]
    | none =>
      cases h2 : env.watchErr with
      | some e => simp [ModeTerminating, h1, h2]
      | none =>
        have h := terminatingLoop_state_blind script s s'
        simp [ModeTerminating, h1, h2, h.1, h.2]

/-- C2 amended witness at concrete inputs. -/
theorem c2_amended_witness :
    ModeContinue stPend envOff = ⟨.next .HookError, [], stPend⟩ ∧
    ModeAbide stPend ⟨false, none, false, none, true, none, none, none, false⟩ []
        ⟨false, none, none, none, none, none⟩ [] =
      ⟨.err (.fatal ("insane uniter state: run-hook")), [], stPend⟩ ∧
    (ModeTerminating stPend ⟨none, none⟩ []).res =
      (ModeTerminating stBase ⟨none, none⟩ []).res :=
  ⟨c2_amended_thm.1 stPend ⟨"start", 0, ""⟩ envOff rfl rfl rfl rfl (Or.inl rfl),
   c2_amended_thm.2.1 stPend ⟨false, none, false, none, true, none, none, none, false⟩ []
     ⟨false, none, none, none, none, none⟩ [] rfl,
   (c2_amended_thm.2.2 [] ⟨none, none⟩ stPend stBase).1⟩

/-- C3 counterexample: on the RunHook+Queued state stQueued, a
ModeContinue pass with the leadership feature enabled and a disagreeing
tracker claim runs only an accept-leadership operation — no run-hook
operation — and returns ModeContinue with the persisted Kind still
RunHook, contradicting the claimed unconditional Step dispatch. -/
theorem c3_counterexample :
    (ModeContinue stQueued envLead).ops = [Op.acceptLeadership] ∧
    (ModeContinue stQueued envLead).res = .next .Continue ∧
    (ModeContinue stQueued envLead).st.Kind ≠ operation.Continue := by
  refine ⟨by decide, by decide, by decide⟩

/-- C3 amended: for every state with Kind=RunHook and a recorded hook,
provided the metrics-collector initialization succeeds and leadership
reconciliation does not intervene, ModeContinue dispatches by Step —
Pending returns HookError with no operation; Queued runs exactly the one
run-hook operation for the persisted hook and on success the persisted
state becomes Kind=Continue and ModeContinue is returned; Done runs
exactly the one skip-hook operation and returns Continue on success — and
a state whose Kind is none of the five enumerated kinds yields a fatal
error with no operation. -/
theorem c3_amended_thm (s : State) (hi : HookInfo) (env : ContinueEnv)
    (hhook : s.Hook = some hi) (hmet : env.initMetricsErr = none)
    (hlead : env.leaderFlag = false ∨ env.claimLeader = s.Leader) :
    (s.Kind = operation.RunHook →
      (s.Step = .Pending → ModeContinue s env = ⟨.next .HookError, [], s⟩) ∧
      (s.Step = .Queued →
        (ModeContinue s env).ops = [.runHook hi] ∧
        (env.dispatchOpErr = none →
          ModeContinue s env =
            ⟨.next .Continue, [.runHook hi], execCommit (.runHook hi) s⟩ ∧
          (ModeContinue s env).st.Kind = operation.Continue)) ∧
      (s.Step = .Done →
        (ModeContinue s env).ops = [.skipHook hi] ∧
        (env.dispatchOpErr = none →
          ModeContinue s env =
            ⟨.next .Continue, [.skipHook hi], execCommit (.skipHook hi) s⟩))) ∧
    (s.Kind ≠ operation.Install → s.Kind ≠ operation.Upgrade →
      s.Kind ≠ operation.RunHook → s.Kind ≠ operation.RunAction →
      s.Kind ≠ operation.Continue →
      ModeContinue s env =
        ⟨.err (.fatal ("unknown operation kind " ++ s.Kind)), [], s⟩) := by
  have hg : (env.leaderFlag && env.claimLeader != s.Leader) = false := by
    rcases hlead with h | h <;> simp [h]
  constructor
  · intro hk
    refine ⟨?_, ?_, ?_⟩
    · intro hstep
      simp [ModeContinue, dispatchContinue, hk, hstep, hhook, hmet, hg,
        operation.Install, operation.Upgrade, operation.RunAction, operation.RunHook]
    · intro hstep
      constructor
      · cases hde : env.dispatchOpErr <;>
          simp [ModeContinue, dispatchContinue, hk, hstep, hhook, hmet, hg, hde,
            continueAfter, Outcome.withOps,
            operation.Install, operation.Upgrade, operation.RunAction, operation.RunHook]
      · intro hde
        constructor
        · simp [ModeContinue, dispatchContinue, hk, hstep, hhook, hmet, hg, hde,
            continueAfter, Outcome.withOps,
            operation.Install, operation.Upgrade, operation.RunAction, operation.RunHook]
        · simp [ModeContinue, dispatchContinue, hk, hstep, hhook, hmet, hg, hde,
            continueAfter, Outcome.withOps, execCommit,
            operation.Install, operation.Upgrade, operation.RunAction,
            operation.RunHook, operation.Continue]
    · intro hstep
      constructor
      · cases hde : env.dispatchOpErr <;>
          simp [ModeContinue, dispatchContinue, hk, hstep, hhook, hmet, hg, hde,
            continueAfter, Outcome.withOps,
            operation.Install, operation.Upgrade, operation.RunAction, operation.RunHook]
      · intro hde
        simp [ModeContinue, dispatchContinue, hk, hstep, hhook, hmet, hg, hde,
          continueAfter, Outcome.withOps,
          operation.Install, operation.Upgrade, operation.RunAction, operation.RunHook]
  · intro h1 h2 h3 h4 h5
    simp [ModeContinue, dispatchContinue, hmet, hg, h1, h2, h3, h4, h5]

/-- C3 amended witness at concrete inputs: the scenario state
RunHook+Queued with hook start, leadership disabled. -/
theorem c3_amended_witness :
    ModeContinue stQueued envOff =
      ⟨.next .Continue, [.runHook ⟨"start", 0, ""⟩],
        execCommit (.runHook ⟨"start", 0, ""⟩) stQueued⟩ ∧
    (ModeContinue stQueued envOff).st.Kind = operation.Continue ∧
    ModeContinue stPend envOff = ⟨.next .HookError, [], stPend⟩ :=
  ⟨((((c3_amended_thm stQueued ⟨"start", 0, ""⟩ envOff rfl rfl (Or.inl rfl)).1
      rfl).2.1 rfl).2 rfl).1,
   ((((c3_amended_thm stQueued ⟨"start", 0, ""⟩ envOff rfl rfl (Or.inl rfl)).1
      rfl).2.1 rfl).2 rfl).2,
   (((c3_amended_thm stPend ⟨"start", 0, ""⟩ envOff rfl rfl (Or.inl rfl)).1
      rfl).1 rfl)⟩

/-- continueAfter always hands exactly its one operation to the executor. -/
theorem continueAfter_ops (op : Op) (opErr : Option Err) (s : State) :
    (continueAfter op opErr s).ops = [op] := by
  cases opErr <;> rfl

/-- The ordinary dispatch of ModeContinue runs no leadership operation of
its own: the leadership operations in its trace are exactly those of the
prefix handed to it. -/
theorem dispatchContinue_leader_ops (s : State) (opErr : Option Err) (pre : List Op) :
    ((dispatchContinue s opErr pre).ops).filter isLeadershipOp =
      pre.filter isLeadershipOp := by
  unfold dispatchContinue
  repeat' split
  all_goals cases opErr <;> simp [continueAfter, Outcome.withOps, isLeadershipOp]

/-- C4: on a ModeContinue pass with the leadership feature enabled, a
state outside Install/Upgrade, successful metrics initialization and a
tracker claim disagreeing with the persisted Leader flag, exactly one
leadership operation runs — accept when the claim is true, resign when it
is false; on its success ModeContinue is returned; a
cannot-accept-leadership failure is swallowed and ordinary dispatch
proceeds with only that one leadership operation on the trace; any other
failure is fatal. -/
theorem c4_leadership_reconciliation (s : State) (env : ContinueEnv)
    (h1 : s.Kind ≠ operation.Install) (h2 : s.Kind ≠ operation.Upgrade)
    (hmet : env.initMetricsErr = none) (hflag : env.leaderFlag = true)
    (hdiff : env.claimLeader ≠ s.Leader) :
    ((ModeContinue s env).ops.filter isLeadershipOp =
      [if env.claimLeader then Op.acceptLeadership else Op.resignLeadership]) ∧
    (env.leaderOpErr = none →
      ModeContinue s env =
        ⟨.next .Continue,
          [if env.claimLeader then Op.acceptLeadership else Op.resignLeadership],
          execCommit
            (if env.claimLeader then Op.acceptLeadership else Op.resignLeadership) s⟩) ∧
    (env.leaderOpErr = some .ErrCannotAcceptLeadership →
      ModeContinue s env =
        dispatchContinue s env.dispatchOpErr
          [if env.claimLeader then Op.acceptLeadership else Op.resignLeadership]) ∧
    (∀ e, env.leaderOpErr = some e → e ≠ .ErrCannotAcceptLeadership →
      ModeContinue s env =
        ⟨.err e,
          [if env.claimLeader then Op.acceptLeadership else Op.resignLeadership], s⟩) := by
  cases hcl : env.claimLeader with
  | false =>
    have hsl : s.Leader = true := by
      cases hL : s.Leader
      · exact absurd (hcl.trans hL.symm) hdiff
      · rfl
    refine ⟨?_, ?_, ?_, ?_⟩
    · cases hle : env.leaderOpErr with
      | none => simp [ModeContinue, h1, h2, hmet, hflag, hcl, hsl, hle, isLeadershipOp]
      | some e =>
        by_cases hca : e = .ErrCannotAcceptLeadership
        · subst hca
          simp [ModeContinue, h1, h2, hmet, hflag, hcl, hsl, hle,
            dispatchContinue_leader_ops, isLeadershipOp]
        · simp [ModeContinue, h1, h2, hmet, hflag, hcl, hsl, hle, hca, isLeadershipOp]
    · intro hle
      simp [ModeContinue, h1, h2, hmet, hflag, hcl, hsl, hle]
    · intro hle
      simp [ModeContinue, h1, h2, hmet, hflag, hcl, hsl, hle]
    · intro e hle hca
      simp [ModeContinue, h1, h2, hmet, hflag, hcl, hsl, hle, hca]
  | true =>
    have hsl : s.Leader = false := by
      cases hL : s.Leader
      · rfl
      · exact absurd (hcl.trans hL.symm) hdiff
    refine ⟨?_, ?_, ?_, ?_⟩
    · cases hle : env.leaderOpErr with
      | none => simp [ModeContinue, h1, h2, hmet, hflag, hcl, hsl, hle, isLeadershipOp]
      | some e =>
        by_cases hca : e = .ErrCannotAcceptLeadership
        · subst hca
          simp [ModeContinue, h1, h2, hmet, hflag, hcl, hsl, hle,
            dispatchContinue_leader_ops, isLeadershipOp]
        · simp [ModeContinue, h1, h2, hmet, hflag, hcl, hsl, hle, hca, isLeadershipOp]
    · intro hle
      simp [ModeContinue, h1, h2, hmet, hflag, hcl, hsl, hle]
    · intro hle
      simp [ModeContinue, h1, h2, hmet, hflag, hcl, hsl, hle]
    · intro e hle hca
      simp [ModeContinue, h1, h2, hmet, hflag, hcl, hsl, hle, hca]

/-- C4 witness: the stPend state with the leadership-enabled environment
envLead (tracker claims leadership, persisted Leader is false). -/
theorem c4_witness :
    (ModeContinue stPend envLead).ops.filter isLeadershipOp = [Op.acceptLeadership] ∧
    ModeContinue stPend envLead =
      ⟨.next .Continue, [Op.acceptLeadership], execCommit Op.acceptLeadership stPend⟩ :=
  ⟨by
    have h := (c4_leadership_reconciliation stPend envLead (by decide) (by decide)
      rfl rfl (by decide)).1
    simpa using h,
   by
    have h := (c4_leadership_reconciliation stPend envLead (by decide) (by decide)
      rfl rfl (by decide)).2.1 rfl
    simpa using h⟩

/-- C5: an iteration of the HookError wait loop that receives a
resolution event runs exactly one retry operation for the failed hook on
the retry value and exactly one skip operation on the no-hooks value; any
other resolution value is a fatal error with no operation; if the chosen
operation fails with the hook-failure error the loop continues (staying in
HookError, with the error status re-asserted at the top of the next
iteration); any other operation failure is fatal; and on success the mode
returns Continue. -/
theorem c5_hook_error_resolution (hi : HookInfo) (s : State) (armed : Bool)
    (st : HookErrStep) (rest : List HookErrStep) (rm : String)
    (hss : st.setStatusErr = none) (hcase : st.hcase = .resolvedEvent rm) :
    (rm = ResolvedRetryHooks →
      (hookErrLoop hi s armed (st :: rest)).ops.head? = some (.retryHook hi) ∧
      (st.opErr = none →
        hookErrLoop hi s armed (st :: rest) =
          ⟨.next .Continue, [.retryHook hi], execCommit (.retryHook hi) s⟩) ∧
      (st.opErr = some .ErrHookFailed →
        hookErrLoop hi s armed (st :: rest) =
          (hookErrLoop hi s armed rest).withOps [.retryHook hi]) ∧
      (∀ e, st.opErr = some e → e ≠ .ErrHookFailed →
        hookErrLoop hi s armed (st :: rest) = ⟨.err e, [.retryHook hi], s⟩)) ∧
    (rm = ResolvedNoHooks →
      (hookErrLoop hi s armed (st :: rest)).ops.head? = some (.skipHook hi) ∧
      (st.opErr = none →
        hookErrLoop hi s armed (st :: rest) =
          ⟨.next .Continue, [.skipHook hi], execCommit (.skipHook hi) s⟩) ∧
      (st.opErr = some .ErrHookFailed →
        hookErrLoop hi s armed (st :: rest) =
          (hookErrLoop hi s armed rest).withOps [.skipHook hi]) ∧
      (∀ e, st.opErr = some e → e ≠ .ErrHookFailed →
        hookErrLoop hi s armed (st :: rest) = ⟨.err e, [.skipHook hi], s⟩)) ∧
    (rm ≠ ResolvedRetryHooks → rm ≠ ResolvedNoHooks →
      hookErrLoop hi s armed (st :: rest) =
        ⟨.err (.fatal ("unknown resolved mode " ++ rm)), [], s⟩) := by
  have hrn : ResolvedRetryHooks ≠ ResolvedNoHooks := by decide
  refine ⟨?_, ?_, ?_⟩
  · intro hr
    refine ⟨?_, ?_, ?_, ?_⟩
    · cases ho : st.opErr with
      | none => simp [hookErrLoop, hss, hcase, hr, ho]
      | some e =>
        by_cases he : e = .ErrHookFailed
        · subst he
          simp [hookErrLoop, hss, hcase, hr, ho, Outcome.withOps]
        · simp [hookErrLoop, hss, hcase, hr, ho, he]
    · intro ho; simp [hookErrLoop, hss, hcase, hr, ho]
    · intro ho; simp [hookErrLoop, hss, hcase, hr, ho]
    · intro e ho he; simp [hookErrLoop, hss, hcase, hr, ho, he]
  · intro hr
    subst hr
    refine ⟨?_, ?_, ?_, ?_⟩
    · cases ho : st.opErr with
      | none => simp [hookErrLoop, hss, hcase, hrn.symm, ho]
      | some e =>
        by_cases he : e = .ErrHookFailed
        · subst he
          simp [hookErrLoop, hss, hcase, hrn.symm, ho, Outcome.withOps]
        · simp [hookErrLoop, hss, hcase, hrn.symm, ho, he]
    · intro ho; simp [hookErrLoop, hss, hcase, hrn.symm, ho]
    · intro ho; simp [hookErrLoop, hss, hcase, hrn.symm, ho]
    · intro e ho he; simp [hookErrLoop, hss, hcase, hrn.symm, ho, he]
  · intro hr1 hr2
    simp [hookErrLoop, hss, hcase, hr1, hr2]

/-- C5 witness: the spec scenario — hook install, resolution retry-hooks;
on success the loop returns Continue after exactly one retry operation,
and on hook failure it loops with the retry operation traced. -/
theorem c5_witness :
    hookErrLoop ⟨"install", 0, ""⟩ stPend false
        [⟨none, .resolvedEvent ("retry-hooks"), false, none⟩] =
      ⟨.next .Continue, [.retryHook ⟨"install", 0, ""⟩],
        execCommit (.retryHook ⟨"install", 0, ""⟩) stPend⟩ ∧
    hookErrLoop ⟨"install", 0, ""⟩ stPend false
        [⟨none, .resolvedEvent ("retry-hooks"), false, some .ErrHookFailed⟩] =
      (hookErrLoop ⟨"install", 0, ""⟩ stPend false []).withOps
        [.retryHook ⟨"install", 0, ""⟩] :=
  ⟨((c5_hook_error_resolution ⟨"install", 0, ""⟩ stPend false
      ⟨none, .resolvedEvent ("retry-hooks"), false, none⟩ [] ("retry-hooks")
      rfl rfl).1 rfl).2.1 rfl,
   ((c5_hook_error_resolution ⟨"install", 0, ""⟩ stPend false
      ⟨none, .resolvedEvent ("retry-hooks"), false, some .ErrHookFailed⟩ []
      ("retry-hooks") rfl rfl).1 rfl).2.2.1 rfl⟩

/-- The Kind=Continue state with no recorded hook descriptor. -/
def stNoHook : State := { stBase with Hook := none }

/-- The Kind=Continue state whose last hook was the stop hook. -/
def stAfterStop : State := { stBase with Hook := some ⟨"stop", 0, ""⟩ }

/-- C6 counterexample: on the Kind=Continue state with no recorded Hook
descriptor, ModeContinue dereferences the nil hook pointer and panics —
it returns neither Terminating nor Abide nor any mode; and even with a
hook recorded (the stop hook), a leadership-enabled pass with a
disagreeing tracker claim returns ModeContinue, not Terminating/Abide. -/
theorem c6_counterexample :
    ModeContinue stNoHook envOff = ⟨.panicked, [], stNoHook⟩ ∧
    (ModeContinue stNoHook envOff).res ≠ .next .Terminating ∧
    (ModeContinue stNoHook envOff).res ≠ .next .Abide ∧
    (ModeContinue stAfterStop envLead).res = .next .Continue ∧
    (ModeContinue stAfterStop envLead).res ≠ .next .Terminating := by
  refine ⟨by decide, by decide, by decide, by decide, by decide⟩

/-- C6 amended: for every Kind=Continue state that does record a hook
descriptor, provided metrics initialization succeeds and leadership
reconciliation does not intervene, ModeContinue totally returns a next
mode with no operation: Terminating when the recorded hook kind is the
stop lifecycle hook, Abide otherwise; a Continue state with no recorded
hook instead panics on the nil dereference. -/
theorem c6_amended_thm (s : State) (hi : HookInfo) (env : ContinueEnv)
    (hk : s.Kind = operation.Continue) (hhook : s.Hook = some hi)
    (hmet : env.initMetricsErr = none)
    (hlead : env.leaderFlag = false ∨ env.claimLeader = s.Leader) :
    ModeContinue s env =
      ⟨.next (if hi.Kind = hooks.Stop then .Terminating else .Abide), [], s⟩ := by
  have hg : (env.leaderFlag && env.claimLeader != s.Leader) = false := by
    rcases hlead with h | h <;> simp [h]
  by_cases hstop : hi.Kind = hooks.Stop <;>
    simp [ModeContinue, dispatchContinue, hk, hhook, hmet, hg, hstop,
      operation.Install, operation.Upgrade, operation.RunAction,
      operation.RunHook, operation.Continue]

/-- C6 amended witness: after a stop hook the next mode is Terminating;
after a start hook it is Abide. -/
theorem c6_amended_witness :
    ModeContinue stAfterStop envOff = ⟨.next .Terminating, [], stAfterStop⟩ ∧
    ModeContinue stBase envOff = ⟨.next .Abide, [], stBase⟩ :=
  ⟨by simpa using
      c6_amended_thm stAfterStop ⟨"stop", 0, ""⟩ envOff rfl rfl rfl (Or.inl rfl),
   by simpa using
      c6_amended_thm stBase ⟨"start", 0, ""⟩ envOff rfl rfl rfl (Or.inl rfl)⟩

/-- The dying wait loop never produces the Abide mode. -/
theorem dyingLoop_no_abide (script : List DyingStep) :
    ∀ (s : State) (se : Option Err), (dyingLoop s se script).res ≠ .next .Abide := by
  induction script with
  | nil => intro s se; simp [dyingLoop]
  | cons st rest ih =>
    intro s se
    cases hre : st.relationsEmpty with
    | true => cases se <;> simp [dyingLoop, hre, continueAfter]
    | false =>
      cases hc : st.dcase with
      | tombDying => simp [dyingLoop, hre, hc]
      | actionEvent id =>
        cases ho : st.opErr with
        | some e => simp [dyingLoop, hre, hc, ho]
        | none =>
          simp only [dyingLoop, hre, hc, ho, Outcome.withOps,
            Bool.false_eq_true, if_false]
          exact ih _ _
      | configEvent =>
        cases ho : st.opErr with
        | some e => simp [dyingLoop, hre, hc, ho]
        | none =>
          simp only [dyingLoop, hre, hc, ho, Outcome.withOps,
            Bool.false_eq_true, if_false]
          exact ih _ _
      | leaderSettingsEvent =>
        cases ho : st.opErr with
        | some e => simp [dyingLoop, hre, hc, ho]
        | none =>
          simp only [dyingLoop, hre, hc, ho, Outcome.withOps,
            Bool.false_eq_true, if_false]
          exact ih _ _
      | relationHook hi =>
        cases ho : st.opErr with
        | some e => simp [dyingLoop, hre, hc, ho]
        | none =>
          simp only [dyingLoop, hre, hc, ho, Outcome.withOps,
            Bool.false_eq_true, if_false]
          exact ih _ _

/-- The dying wait loop hands the stop hook to the executor at most once. -/
theorem dyingLoop_stop_count (script : List DyingStep) :
    ∀ s se, ((dyingLoop s se script).ops.count (Op.simpleRunHook hooks.Stop)) ≤ 1 := by
  induction script with
  | nil => intro s se; simp [dyingLoop]
  | cons st rest ih =>
    intro s se
    cases hre : st.relationsEmpty with
    | true => cases se <;> simp [dyingLoop, hre, continueAfter]
    | false =>
      cases hc : st.dcase with
      | tombDying => simp [dyingLoop, hre, hc]
      | actionEvent id =>
        cases ho : st.opErr with
        | some e => simp [dyingLoop, hre, hc, ho]
        | none =>
          simpa [dyingLoop, hre, hc, ho, Outcome.withOps] using ih (execCommit (.action id) s) se
      | configEvent =>
        cases ho : st.opErr with
        | some e => simp [dyingLoop, hre, hc, ho, hooks.Stop, hooks.ConfigChanged]
        | none =>
          simpa [dyingLoop, hre, hc, ho, Outcome.withOps, hooks.Stop, hooks.ConfigChanged]
            using ih (execCommit (.simpleRunHook hooks.ConfigChanged) s) se
      | leaderSettingsEvent =>
        cases ho : st.opErr with
        | some e => simp [dyingLoop, hre, hc, ho, hooks.Stop]
        | none =>
          simpa [dyingLoop, hre, hc, ho, Outcome.withOps, hooks.Stop]
            using ih (execCommit (.simpleRunHook ("leader-settings-changed")) s) se
      | relationHook hi =>
        cases ho : st.opErr with
        | some e => simp [dyingLoop, hre, hc, ho]
        | none =>
          simpa [dyingLoop, hre, hc, ho, Outcome.withOps] using ih (execCommit (.runHook hi) s) se

/-- While every iteration of the dying wait loop still sees a non-empty
relation set, the stop hook is never handed to the executor. -/
theorem dyingLoop_no_stop_while_relations (script : List DyingStep) :
    ∀ s se, (∀ st ∈ script, st.relationsEmpty = false) →
      Op.simpleRunHook hooks.Stop ∉ (dyingLoop s se script).ops := by
  induction script with
  | nil => intro s se h; simp [dyingLoop]
  | cons st rest ih =>
    intro s se h
    have hre : st.relationsEmpty = false := h st (List.mem_cons_self st rest)
    have hrest : ∀ x ∈ rest, x.relationsEmpty = false :=
      fun x hx => h x (List.mem_cons_of_mem st hx)
    cases hc : st.dcase with
    | tombDying => simp [dyingLoop, hre, hc]
    | actionEvent id =>
      cases ho : st.opErr with
      | some e => simp [dyingLoop, hre, hc, ho]
      | none =>
        intro hmem
        exact ih (execCommit (.action id) s) se hrest
          (by simpa [dyingLoop, hre, hc, ho, Outcome.withOps] using hmem)
    | configEvent =>
      cases ho : st.opErr with
      | some e => simp [dyingLoop, hre, hc, ho, hooks.Stop, hooks.ConfigChanged]
      | none =>
        intro hmem
        exact ih (execCommit (.simpleRunHook hooks.ConfigChanged) s) se hrest
          (by simpa [dyingLoop, hre, hc, ho, Outcome.withOps, hooks.Stop,
            hooks.ConfigChanged] using hmem)
    | leaderSettingsEvent =>
      cases ho : st.opErr with
      | some e => simp [dyingLoop, hre, hc, ho, hooks.Stop]
      | none =>
        intro hmem
        exact ih (execCommit (.simpleRunHook ("leader-settings-changed")) s) se hrest
          (by simpa [dyingLoop, hre, hc, ho, Outcome.withOps, hooks.Stop] using hmem)
    | relationHook hi =>
      cases ho : st.opErr with
      | some e => simp [dyingLoop, hre, hc, ho]
      | none =>
        intro hmem
        exact ih (execCommit (.runHook hi) s) se hrest
          (by simpa [dyingLoop, hre, hc, ho, Outcome.withOps] using hmem)

/-- When the dying wait loop returns the Continue mode, it ran the stop
hook, and the stop operation succeeded. -/
theorem dyingLoop_continue_ran_stop (script : List DyingStep) :
    ∀ s se, (dyingLoop s se script).res = .next .Continue →
      Op.simpleRunHook hooks.Stop ∈ (dyingLoop s se script).ops ∧ se = none := by
  induction script with
  | nil => intro s se h; simp [dyingLoop] at h
  | cons st rest ih =>
    intro s se h
    cases hre : st.relationsEmpty with
    | true =>
      cases hse : se with
      | none => simp [dyingLoop, hre, hse, continueAfter]
      | some e =>
        rw [hse] at h
        simp [dyingLoop, hre, continueAfter] at h
    | false =>
      cases hc : st.dcase with
      | tombDying => simp [dyingLoop, hre, hc] at h
      | actionEvent id =>
        cases ho : st.opErr with
        | some e => simp [dyingLoop, hre, hc, ho] at h
        | none =>
          have hres : (dyingLoop (execCommit (.action id) s) se rest).res =
              .next .Continue := by
            simpa [dyingLoop, hre, hc, ho, Outcome.withOps] using h
          obtain ⟨h1, h2⟩ := ih _ se hres
          subst h2
          simp [dyingLoop, hre, hc, ho, Outcome.withOps, h1]
      | configEvent =>
        cases ho : st.opErr with
        | some e => simp [dyingLoop, hre, hc, ho] at h
        | none =>
          have hres : (dyingLoop (execCommit (.simpleRunHook hooks.ConfigChanged) s)
              se rest).res = .next .Continue := by
            simpa [dyingLoop, hre, hc, ho, Outcome.withOps] using h
          obtain ⟨h1, h2⟩ := ih _ se hres
          subst h2
          simp [dyingLoop, hre, hc, ho, Outcome.withOps, h1]
      | leaderSettingsEvent =>
        cases ho : st.opErr with
        | some e => simp [dyingLoop, hre, hc, ho] at h
        | none =>
          have hres : (dyingLoop
              (execCommit (.simpleRunHook ("leader-settings-changed")) s) se rest).res =
              .next .Continue := by
            simpa [dyingLoop, hre, hc, ho, Outcome.withOps] using h
          obtain ⟨h1, h2⟩ := ih _ se hres
          subst h2
          simp [dyingLoop, hre, hc, ho, Outcome.withOps, h1]
      | relationHook hi =>
        cases ho : st.opErr with
        | some e => simp [dyingLoop, hre, hc, ho] at h
        | none =>
          have hres : (dyingLoop (execCommit (.runHook hi) s) se rest).res =
              .next .Continue := by
            simpa [dyingLoop, hre, hc, ho, Outcome.withOps] using h
          obtain ⟨h1, h2⟩ := ih _ se hres
          subst h2
          simp [dyingLoop, hre, hc, ho, Outcome.withOps, h1]

/-- One iteration of the dying wait loop runs exactly one operation: the
stop hook when the relation set is empty, otherwise the operation of the
consumed event. -/
theorem dyingLoop_first_op (st : DyingStep) (rest : List DyingStep)
    (s : State) (se : Option Err) :
    (st.relationsEmpty = true →
      (dyingLoop s se (st :: rest)).ops.take 1 = [Op.simpleRunHook hooks.Stop]) ∧
    (st.relationsEmpty = false → ∀ op, dyingOpOf st.dcase = some op →
      (dyingLoop s se (st :: rest)).ops.take 1 = [op]) := by
  constructor
  · intro hre
    cases se <;> simp [dyingLoop, hre, continueAfter]
  · intro hre op hop
    cases hc : st.dcase with
    | tombDying => rw [hc] at hop; simp [dyingOpOf] at hop
    | actionEvent id =>
      rw [hc] at hop
      simp [dyingOpOf] at hop
      cases ho : st.opErr <;>
        simp [dyingLoop, hre, hc, ho, Outcome.withOps, hop]
    | configEvent =>
      rw [hc] at hop
      simp [dyingOpOf] at hop
      cases ho : st.opErr <;>
        simp [dyingLoop, hre, hc, ho, Outcome.withOps, hop.symm]
    | leaderSettingsEvent =>
      rw [hc] at hop
      simp [dyingOpOf] at hop
      cases ho : st.opErr <;>
        simp [dyingLoop, hre, hc, ho, Outcome.withOps, hop.symm]
    | relationHook hi =>
      rw [hc] at hop
      simp [dyingOpOf] at hop
      cases ho : st.opErr <;>
        simp [dyingLoop, hre, hc, ho, Outcome.withOps, hop]

/-- modeAbideDyingLoop never produces the Abide mode. -/
theorem modeAbideDyingLoop_no_abide (s : State) (env : DyingEnv)
    (script : List DyingStep) :
    (modeAbideDyingLoop s env script).res ≠ .next .Abide := by
  unfold modeAbideDyingLoop
  cases env.refreshErr with
  | some e => simp
  | none =>
    cases env.destroySubsErr with
    | some e => simp
    | none =>
      cases env.setDyingErr with
      | some e => simp
      | none =>
        by_cases hl : (env.leaderFlag && s.Leader) = true
        · rw [if_pos hl]
          cases env.resignOpErr with
          | some e => simp
          | none =>
            simp only [Outcome.withOps]
            exact dyingLoop_no_abide script _ _
        · rw [if_neg hl]
          exact dyingLoop_no_abide script _ _

/-- C7: the Abide dying loop never returns the Abide mode; the stop hook
is handed to the executor at most once and never while a relation
remains; a return of the Continue mode means the stop hook ran and
succeeded; and each iteration runs exactly one operation — the consumed
event's operation while relations remain, the stop hook once the relation
set is empty. -/
theorem c7_dying_loop_stop (s : State) (se : Option Err)
    (script : List DyingStep) (env : DyingEnv) :
    ((dyingLoop s se script).res ≠ .next .Abide) ∧
    ((modeAbideDyingLoop s env script).res ≠ .next .Abide) ∧
    ((dyingLoop s se script).ops.count (Op.simpleRunHook hooks.Stop) ≤ 1) ∧
    ((∀ st ∈ script, st.relationsEmpty = false) →
      Op.simpleRunHook hooks.Stop ∉ (dyingLoop s se script).ops) ∧
    ((dyingLoop s se script).res = .next .Continue →
      Op.simpleRunHook hooks.Stop ∈ (dyingLoop s se script).ops ∧ se = none) ∧
    (∀ st rest, script = st :: rest →
      (st.relationsEmpty = true →
        (dyingLoop s se script).ops.take 1 = [Op.simpleRunHook hooks.Stop]) ∧
      (st.relationsEmpty = false → ∀ op, dyingOpOf st.dcase = some op →
        (dyingLoop s se script).ops.take 1 = [op])) :=
  ⟨dyingLoop_no_abide script s se,
   modeAbideDyingLoop_no_abide s env script,
   dyingLoop_stop_count script s se,
   dyingLoop_no_stop_while_relations script s se,
   dyingLoop_continue_ran_stop script s se,
   fun st rest hsc => hsc ▸ dyingLoop_first_op st rest s se⟩

/-- C7 witness: a two-iteration dying script — one relation hook while a
relation remains, then the stop hook once the set is empty — runs the
stop hook exactly once, last, and returns Continue. -/
theorem c7_witness :
    dyingLoop stBase none
        [⟨false, .relationHook ⟨"relation-broken", 0, ""⟩, false, none⟩,
         ⟨true, .configEvent, false, none⟩] =
      ⟨.next .Continue,
        [.runHook ⟨"relation-broken", 0, ""⟩, .simpleRunHook hooks.Stop],
        execCommit (.simpleRunHook hooks.Stop)
          (execCommit (.runHook ⟨"relation-broken", 0, ""⟩) stBase)⟩ ∧
    Op.simpleRunHook hooks.Stop ∈
      (dyingLoop stBase none
        [⟨false, .relationHook ⟨"relation-broken", 0, ""⟩, false, none⟩,
         ⟨true, .configEvent, false, none⟩]).ops :=
  ⟨by decide,
   ((c7_dying_loop_stop stBase none
      [⟨false, .relationHook ⟨"relation-broken", 0, ""⟩, false, none⟩,
       ⟨true, .configEvent, false, none⟩]
      ⟨false, none, none, none, none, none⟩).2.2.2.2.1 (by decide)).1⟩

/-- C8: after the error status is set, a ModeConflicted entry consuming a
forced-upgrade event for a new charm URL runs exactly one revert-upgrade
operation for that new URL, and one consuming a resolution event runs
exactly one resolved-upgrade operation for the current URL; either way it
returns Continue on the operation's success and a fatal error on any
failure. -/
theorem c8_conflicted (curl : String) (s : State) (env : ConfEnv) (st : ConfStep)
    (hss : env.setStatusErr = none) :
    (∀ c2, st.ccase = .upgradeEvent c2 →
      (ModeConflicted curl s env (some st)).ops = [.revertUpgrade c2] ∧
      (env.opErr = none →
        ModeConflicted curl s env (some st) =
          ⟨.next .Continue, [.revertUpgrade c2], execCommit (.revertUpgrade c2) s⟩) ∧
      (∀ e, env.opErr = some e →
        ModeConflicted curl s env (some st) = ⟨.err e, [.revertUpgrade c2], s⟩)) ∧
    (st.ccase = .resolvedEvent →
      (ModeConflicted curl s env (some st)).ops = [.resolvedUpgrade curl] ∧
      (env.opErr = none →
        ModeConflicted curl s env (some st) =
          ⟨.next .Continue, [.resolvedUpgrade curl],
            execCommit (.resolvedUpgrade curl) s⟩) ∧
      (∀ e, env.opErr = some e →
        ModeConflicted curl s env (some st) = ⟨.err e, [.resolvedUpgrade curl], s⟩)) := by
  constructor
  · intro c2 hc
    refine ⟨?_, ?_, ?_⟩
    · cases ho : env.opErr <;> simp [ModeConflicted, hss, hc, ho, continueAfter]
    · intro ho; simp [ModeConflicted, hss, hc, ho, continueAfter]
    · intro e ho; simp [ModeConflicted, hss, hc, ho, continueAfter]
  · intro hc
    refine ⟨?_, ?_, ?_⟩
    · cases ho : env.opErr <;> simp [ModeConflicted, hss, hc, ho, continueAfter]
    · intro ho; simp [ModeConflicted, hss, hc, ho, continueAfter]
    · intro e ho; simp [ModeConflicted, hss, hc, ho, continueAfter]

/-- C8 witness: the spec scenario — in Conflicted for cs:foo-3, a forced
upgrade to cs:foo-4 runs exactly one revert-upgrade(cs:foo-4) and returns
Continue. -/
theorem c8_witness :
    ModeConflicted ("cs:foo-3") stBase ⟨none, none⟩
        (some ⟨.upgradeEvent ("cs:foo-4"), false⟩) =
      ⟨.next .Continue, [.revertUpgrade ("cs:foo-4")],
        execCommit (.revertUpgrade ("cs:foo-4")) stBase⟩ :=
  (((c8_conflicted ("cs:foo-3") stBase ⟨none, none⟩
      ⟨.upgradeEvent ("cs:foo-4"), false⟩ rfl).1 ("cs:foo-4") rfl).2.1) rfl

/-- C9 counterexample: a dying-loop select resolution that is valid under
Go select semantics (every fired case was ready; dyingScriptOKb holds)
in which the cancellation signal is ready at the first iteration
(dyingReady = true) and yet the action case is consumed and its operation
run before the cancellation case fires: the cancellation signal does not
short-circuit ahead of other simultaneously-ready cases. -/
theorem c9_counterexample :
    dyingScriptOKb false
        [⟨false, .actionEvent ("a-9"), true, none⟩,
         ⟨false, .tombDying, true, none⟩] = true ∧
    (dyingLoop stBase none
        [⟨false, .actionEvent ("a-9"), true, none⟩,
         ⟨false, .tombDying, true, none⟩]).ops = [Op.action ("a-9")] ∧
    (dyingLoop stBase none
        [⟨false, .actionEvent ("a-9"), true, none⟩,
         ⟨false, .tombDying, true, none⟩]).res = .err .ErrDying := by
  refine ⟨by decide, by decide, by decide⟩

/-- C9 amended: every select-style wait point of every mode — the Abide
alive and dying loops, Terminating, HookError and Conflicted — includes
the process-wide cancellation signal among its cases, and consuming that
case always returns the fatal dying error immediately, with no operation
run and no recovery; but the signal has no priority over other
simultaneously-ready cases. -/
theorem c9_amended_thm :
    (∀ (s : State) (denv : DyingEnv) (dscript : List DyingStep)
        (dr : Bool) (oe : Option Err) (rest : List AliveStep),
      aliveLoop s denv dscript (⟨.tombDying, dr, oe⟩ :: rest) =
        ⟨.err .ErrDying, [], s⟩) ∧
    (∀ (s : State) (se : Option Err) (dr : Bool) (oe : Option Err)
        (rest : List DyingStep),
      dyingLoop s se (⟨false, .tombDying, dr, oe⟩ :: rest) =
        ⟨.err .ErrDying, [], s⟩) ∧
    (∀ (s : State) (dr : Bool) (oe re hse : Option Err) (hb : Bool)
        (ee : Option Err) (rest : List TermStep),
      terminatingLoop s (⟨.tombDying, dr, oe, re, hse, hb, ee⟩ :: rest) =
        ⟨.err .ErrDying, [], s⟩) ∧
    (∀ (hi : HookInfo) (s : State) (armed dr : Bool) (oe : Option Err)
        (rest : List HookErrStep),
      hookErrLoop hi s armed (⟨none, .tombDying, dr, oe⟩ :: rest) =
        ⟨.err .ErrDying, [], s⟩) ∧
    (∀ (curl : String) (s : State) (oe : Option Err) (dr : Bool),
      ModeConflicted curl s ⟨none, oe⟩ (some ⟨.tombDying, dr⟩) =
        ⟨.err .ErrDying, [], s⟩) := by
  refine ⟨?_, ?_, ?_, ?_, ?_⟩
  · intro s denv dscript dr oe rest; rfl
  · intro s se dr oe rest; simp [dyingLoop]
  · intro s dr oe re hse hb ee rest; rfl
  · intro hi s armed dr oe rest; rfl
  · intro curl s oe dr; rfl

/-- With the leader-deposed wait disarmed, a valid HookError script never
causes a leadership operation or the leader-settings-changed hook. -/
theorem hookErrLoop_no_leader_ops (script : List HookErrStep) :
    ∀ (hi : HookInfo) (s : State), hookErrScriptOKb false script = true →
      ((hookErrLoop hi s false script).ops.all nonLeaderOp) = true := by
  induction script with
  | nil => intro hi s h; simp [hookErrLoop]
  | cons st rest ih =>
    intro hi s h
    rw [hookErrScriptOKb, Bool.and_eq_true, Bool.and_eq_true] at h
    obtain ⟨⟨h1, h2⟩, h3⟩ := h
    have hnd : st.hcase ≠ .leaderDeposed := by
      intro hq; rw [hq] at h2; simp at h2
    have h3' : hookErrScriptOKb false rest = true := by
      rw [Bool.false_and] at h3; exact h3
    cases hss : st.setStatusErr with
    | some e => simp [hookErrLoop, hss]
    | none =>
      cases hc : st.hcase with
      | tombDying => simp [hookErrLoop, hss, hc]
      | upgradeEvent curl => simp [hookErrLoop, hss, hc]
      | leaderDeposed => exact absurd hc hnd
      | resolvedEvent rm =>
        by_cases hr1 : rm = ResolvedRetryHooks
        · cases ho : st.opErr with
          | none =>
            simp [hookErrLoop, hss, hc, hr1, ho, nonLeaderOp, isLeadershipOp,
              leaderSettingsOp]
          | some e =>
            by_cases he : e = .ErrHookFailed
            · subst he
              have hih := ih hi s h3'
              simp [hookErrLoop, hss, hc, hr1, ho, Outcome.withOps, nonLeaderOp,
                isLeadershipOp, leaderSettingsOp, hih]
            · simp [hookErrLoop, hss, hc, hr1, ho, he, nonLeaderOp, isLeadershipOp,
                leaderSettingsOp]
        · by_cases hr2 : rm = ResolvedNoHooks
          · cases ho : st.opErr with
            | none =>
              simp [hookErrLoop, hss, hc, hr1, hr2, ho, nonLeaderOp, isLeadershipOp,
                leaderSettingsOp, ResolvedRetryHooks, ResolvedNoHooks]
            | some e =>
              by_cases he : e = .ErrHookFailed
              · subst he
                have hih := ih hi s h3'
                simp [hookErrLoop, hss, hc, hr1, hr2, ho, Outcome.withOps, nonLeaderOp,
                  isLeadershipOp, leaderSettingsOp, ResolvedRetryHooks,
                  ResolvedNoHooks, hih]
              · simp [hookErrLoop, hss, hc, hr1, hr2, ho, he, nonLeaderOp,
                  isLeadershipOp, leaderSettingsOp, ResolvedRetryHooks, ResolvedNoHooks]
          · simp [hookErrLoop, hss, hc, hr1, hr2]

/-- A cons operation trace is clean when its head operation and its tail
are. -/
theorem all_nonLeaderOp_cons (op : Op) (l : List Op) (h1 : nonLeaderOp op = true)
    (h2 : l.all nonLeaderOp = true) : (op :: l).all nonLeaderOp = true := by
  simp only [List.all_cons, h1, h2, Bool.and_self]

/-- With leader-settings events disabled, a valid dying-loop script never
causes a leadership operation or the leader-settings-changed hook. -/
theorem dyingLoop_no_leader_ops (script : List DyingStep) :
    ∀ (s : State) (se : Option Err), dyingScriptOKb false script = true →
      ((dyingLoop s se script).ops.all nonLeaderOp) = true := by
  induction script with
  | nil => intro s se h; simp [dyingLoop]
  | cons st rest ih =>
    intro s se h
    simp only [dyingScriptOKb, List.all_cons, Bool.and_eq_true] at h
    obtain ⟨hst, hrest⟩ := h
    have hns : st.dcase ≠ .leaderSettingsEvent := by
      intro hq; rw [dyingStepOKb, hq] at hst; simp at hst
    have hrest' : dyingScriptOKb false rest = true := hrest
    cases hre : st.relationsEmpty with
    | true =>
      cases se <;>
        simp [dyingLoop, hre, continueAfter, nonLeaderOp, isLeadershipOp,
          leaderSettingsOp, hooks.Stop]
    | false =>
      cases hc : st.dcase with
      | tombDying => simp [dyingLoop, hre, hc]
      | leaderSettingsEvent => exact absurd hc hns
      | actionEvent id =>
        cases ho : st.opErr with
        | some e =>
          simp [dyingLoop, hre, hc, ho, nonLeaderOp, isLeadershipOp, leaderSettingsOp]
        | none =>
          have hih := ih (execCommit (.action id) s) se hrest'
          have hops : (dyingLoop s se (st :: rest)).ops =
              Op.action id :: (dyingLoop (execCommit (.action id) s) se rest).ops := by
            simp [dyingLoop, hre, hc, ho, Outcome.withOps]
          rw [hops]
          exact all_nonLeaderOp_cons _ _
            (by simp [nonLeaderOp, isLeadershipOp, leaderSettingsOp]) hih
      | configEvent =>
        cases ho : st.opErr with
        | some e =>
          simp [dyingLoop, hre, hc, ho, nonLeaderOp, isLeadershipOp, leaderSettingsOp,
            hooks.ConfigChanged]
        | none =>
          have hih := ih (execCommit (.simpleRunHook hooks.ConfigChanged) s) se hrest'
          have hops : (dyingLoop s se (st :: rest)).ops =
              Op.simpleRunHook hooks.ConfigChanged ::
                (dyingLoop (execCommit (.simpleRunHook hooks.ConfigChanged) s) se
                  rest).ops := by
            simp [dyingLoop, hre, hc, ho, Outcome.withOps]
          rw [hops]
          exact all_nonLeaderOp_cons _ _
            (by simp [nonLeaderOp, isLeadershipOp, leaderSettingsOp,
              hooks.ConfigChanged]) hih
      | relationHook hi =>
        cases ho : st.opErr with
        | some e =>
          simp [dyingLoop, hre, hc, ho, nonLeaderOp, isLeadershipOp, leaderSettingsOp]
        | none =>
          have hih := ih (execCommit (.runHook hi) s) se hrest'
          have hops : (dyingLoop s se (st :: rest)).ops =
              Op.runHook hi :: (dyingLoop (execCommit (.runHook hi) s) se rest).ops := by
            simp [dyingLoop, hre, hc, ho, Outcome.withOps]
          rw [hops]
          exact all_nonLeaderOp_cons _ _
            (by simp [nonLeaderOp, isLeadershipOp, leaderSettingsOp]) hih

/-- modeAbideDyingLoop with the feature flag disabled skips the
resignation preamble and runs no leadership-related operation. -/
theorem modeAbideDyingLoop_no_leader_ops (s : State) (env : DyingEnv)
    (script : List DyingStep) (hf : env.leaderFlag = false)
    (hok : dyingScriptOKb false script = true) :
    ((modeAbideDyingLoop s env script).ops.all nonLeaderOp) = true := by
  unfold modeAbideDyingLoop
  cases env.refreshErr with
  | some e => simp
  | none =>
    cases env.destroySubsErr with
    | some e => simp
    | none =>
      cases env.setDyingErr with
      | some e => simp
      | none =>
        have := dyingLoop_no_leader_ops script s env.stopOpErr hok
        simpa [hf] using this

/-- The alive loop with the feature flag disabled and leader-settings
events unwanted runs no leadership-related operation on any valid script. -/
theorem aliveLoop_no_leader_ops (ascript : List AliveStep) :
    ∀ (s : State) (denv : DyingEnv) (dscript : List DyingStep),
      denv.leaderFlag = false → dyingScriptOKb false dscript = true →
      aliveScriptOKb false false s ascript = true →
      ((aliveLoop s denv dscript ascript).ops.all nonLeaderOp) = true := by
  induction ascript with
  | nil => intro s denv dscript hdf hds h; simp [aliveLoop]
  | cons st rest ih =>
    intro s denv dscript hdf hds h
    rw [aliveScriptOKb, Bool.and_eq_true] at h
    obtain ⟨hst, hrest⟩ := h
    have hne : st.acase ≠ .leaderElected := by
      intro hq; rw [aliveStepOKb, hq] at hst; simp at hst
    have hnd : st.acase ≠ .leaderDeposed := by
      intro hq; rw [aliveStepOKb, hq] at hst; simp at hst
    have hnl : st.acase ≠ .leaderSettingsEvent := by
      intro hq; rw [aliveStepOKb, hq] at hst; simp at hst
    cases hc : st.acase with
    | tombDying => simp [aliveLoop, hc]
    | unitDying =>
      have := modeAbideDyingLoop_no_leader_ops s denv dscript hdf hds
      simpa [aliveLoop, hc] using this
    | upgradeEvent curl => simp [aliveLoop, hc]
    | leaderElected => exact absurd hc hne
    | leaderDeposed => exact absurd hc hnd
    | leaderSettingsEvent => exact absurd hc hnl
    | relationsEvent ids =>
      cases ho : st.opErr with
      | some e =>
        simp [aliveLoop, aliveOpOf, hc, ho, nonLeaderOp, isLeadershipOp, leaderSettingsOp]
      | none =>
        have hnext : aliveNextState s st = execCommit (.updateRelations ids) s := by
          simp [aliveNextState, aliveOpOf, hc, ho]
        have hih := ih (execCommit (.updateRelations ids) s) denv dscript hdf hds
          (hnext ▸ hrest)
        have hops : (aliveLoop s denv dscript (st :: rest)).ops =
            Op.updateRelations ids ::
              (aliveLoop (execCommit (.updateRelations ids) s) denv dscript rest).ops := by
          simp [aliveLoop, aliveOpOf, hc, ho, Outcome.withOps]
        rw [hops]
        exact all_nonLeaderOp_cons _ _
          (by simp [nonLeaderOp, isLeadershipOp, leaderSettingsOp]) hih
    | actionEvent id =>
      cases ho : st.opErr with
      | some e =>
        simp [aliveLoop, aliveOpOf, hc, ho, nonLeaderOp, isLeadershipOp, leaderSettingsOp]
      | none =>
        have hnext : aliveNextState s st = execCommit (.action id) s := by
          simp [aliveNextState, aliveOpOf, hc, ho]
        have hih := ih (execCommit (.action id) s) denv dscript hdf hds (hnext ▸ hrest)
        have hops : (aliveLoop s denv dscript (st :: rest)).ops =
            Op.action id ::
              (aliveLoop (execCommit (.action id) s) denv dscript rest).ops := by
          simp [aliveLoop, aliveOpOf, hc, ho, Outcome.withOps]
        rw [hops]
        exact all_nonLeaderOp_cons _ _
          (by simp [nonLeaderOp, isLeadershipOp, leaderSettingsOp]) hih
    | storageEvent tags =>
      cases ho : st.opErr with
      | some e =>
        simp [aliveLoop, aliveOpOf, hc, ho, nonLeaderOp, isLeadershipOp, leaderSettingsOp]
      | none =>
        have hnext : aliveNextState s st = execCommit (.updateStorage tags) s := by
          simp [aliveNextState, aliveOpOf, hc, ho]
        have hih := ih (execCommit (.updateStorage tags) s) denv dscript hdf hds
          (hnext ▸ hrest)
        have hops : (aliveLoop s denv dscript (st :: rest)).ops =
            Op.updateStorage tags ::
              (aliveLoop (execCommit (.updateStorage tags) s) denv dscript rest).ops := by
          simp [aliveLoop, aliveOpOf, hc, ho, Outcome.withOps]
        rw [hops]
        exact all_nonLeaderOp_cons _ _
          (by simp [nonLeaderOp, isLeadershipOp, leaderSettingsOp]) hih
    | configEvent =>
      cases ho : st.opErr with
      | some e =>
        simp [aliveLoop, aliveOpOf, hc, ho, nonLeaderOp, isLeadershipOp,
          leaderSettingsOp, hooks.ConfigChanged]
      | none =>
        have hnext : aliveNextState s st =
            execCommit (.simpleRunHook hooks.ConfigChanged) s := by
          simp [aliveNextState, aliveOpOf, hc, ho]
        have hih := ih (execCommit (.simpleRunHook hooks.ConfigChanged) s) denv dscript
          hdf hds (hnext ▸ hrest)
        have hops : (aliveLoop s denv dscript (st :: rest)).ops =
            Op.simpleRunHook hooks.ConfigChanged ::
              (aliveLoop (execCommit (.simpleRunHook hooks.ConfigChanged) s) denv
                dscript rest).ops := by
          simp [aliveLoop, aliveOpOf, hc, ho, Outcome.withOps]
        rw [hops]
        exact all_nonLeaderOp_cons _ _
          (by simp [nonLeaderOp, isLeadershipOp, leaderSettingsOp,
            hooks.ConfigChanged]) hih
    | meterStatusEvent =>
      cases ho : st.opErr with
      | some e =>
        simp [aliveLoop, aliveOpOf, hc, ho, nonLeaderOp, isLeadershipOp,
          leaderSettingsOp, hooks.MeterStatusChanged]
      | none =>
        have hnext : aliveNextState s st =
            execCommit (.simpleRunHook hooks.MeterStatusChanged) s := by
          simp [aliveNextState, aliveOpOf, hc, ho]
        have hih := ih (execCommit (.simpleRunHook hooks.MeterStatusChanged) s) denv
          dscript hdf hds (hnext ▸ hrest)
        have hops : (aliveLoop s denv dscript (st :: rest)).ops =
            Op.simpleRunHook hooks.MeterStatusChanged ::
              (aliveLoop (execCommit (.simpleRunHook hooks.MeterStatusChanged) s) denv
                dscript rest).ops := by
          simp [aliveLoop, aliveOpOf, hc, ho, Outcome.withOps]
        rw [hops]
        exact all_nonLeaderOp_cons _ _
          (by simp [nonLeaderOp, isLeadershipOp, leaderSettingsOp,
            hooks.MeterStatusChanged]) hih
    | collectMetricsSignal =>
      cases ho : st.opErr with
      | some e =>
        simp [aliveLoop, aliveOpOf, hc, ho, nonLeaderOp, isLeadershipOp,
          leaderSettingsOp, hooks.CollectMetrics]
      | none =>
        have hnext : aliveNextState s st =
            execCommit (.simpleRunHook hooks.CollectMetrics) s := by
          simp [aliveNextState, aliveOpOf, hc, ho]
        have hih := ih (execCommit (.simpleRunHook hooks.CollectMetrics) s) denv dscript
          hdf hds (hnext ▸ hrest)
        have hops : (aliveLoop s denv dscript (st :: rest)).ops =
            Op.simpleRunHook hooks.CollectMetrics ::
              (aliveLoop (execCommit (.simpleRunHook hooks.CollectMetrics) s) denv
                dscript rest).ops := by
          simp [aliveLoop, aliveOpOf, hc, ho, Outcome.withOps]
        rw [hops]
        exact all_nonLeaderOp_cons _ _
          (by simp [nonLeaderOp, isLeadershipOp, leaderSettingsOp,
            hooks.CollectMetrics]) hih
    | relationHook hi =>
      cases ho : st.opErr with
      | some e =>
        simp [aliveLoop, aliveOpOf, hc, ho, nonLeaderOp, isLeadershipOp, leaderSettingsOp]
      | none =>
        have hnext : aliveNextState s st = execCommit (.runHook hi) s := by
          simp [aliveNextState, aliveOpOf, hc, ho]
        have hih := ih (execCommit (.runHook hi) s) denv dscript hdf hds (hnext ▸ hrest)
        have hops : (aliveLoop s denv dscript (st :: rest)).ops =
            Op.runHook hi ::
              (aliveLoop (execCommit (.runHook hi) s) denv dscript rest).ops := by
          simp [aliveLoop, aliveOpOf, hc, ho, Outcome.withOps]
        rw [hops]
        exact all_nonLeaderOp_cons _ _
          (by simp [nonLeaderOp, isLeadershipOp, leaderSettingsOp]) hih
    | storageHook hi =>
      cases ho : st.opErr with
      | some e =>
        simp [aliveLoop, aliveOpOf, hc, ho, nonLeaderOp, isLeadershipOp, leaderSettingsOp]
      | none =>
        have hnext : aliveNextState s st = execCommit (.runHook hi) s := by
          simp [aliveNextState, aliveOpOf, hc, ho]
        have hih := ih (execCommit (.runHook hi) s) denv dscript hdf hds (hnext ▸ hrest)
        have hops : (aliveLoop s denv dscript (st :: rest)).ops =
            Op.runHook hi ::
              (aliveLoop (execCommit (.runHook hi) s) denv dscript rest).ops := by
          simp [aliveLoop, aliveOpOf, hc, ho, Outcome.withOps]
        rw [hops]
        exact all_nonLeaderOp_cons _ _
          (by simp [nonLeaderOp, isLeadershipOp, leaderSettingsOp]) hih

/-- Ordinary ModeContinue dispatch entered with an empty prefix runs no
leadership-related operation. -/
theorem dispatchContinue_ops_nonleader (s : State) (opErr : Option Err) :
    ((dispatchContinue s opErr []).ops.all nonLeaderOp) = true := by
  unfold dispatchContinue
  repeat' split
  all_goals cases opErr <;>
    simp [continueAfter, Outcome.withOps, nonLeaderOp, isLeadershipOp, leaderSettingsOp]

/-- ModeContinue with the feature flag disabled runs no
leadership-related operation. -/
theorem modeContinue_no_leader_ops (s : State) (env : ContinueEnv)
    (hf : env.leaderFlag = false) :
    ((ModeContinue s env).ops.all nonLeaderOp) = true := by
  by_cases h1 : s.Kind = operation.Install
  · simp [ModeContinue, h1]
  · by_cases h2 : s.Kind = operation.Upgrade
    · simp [ModeContinue, h1, h2, operation.Install, operation.Upgrade]
    · cases hm : env.initMetricsErr with
      | some e => simp [ModeContinue, h1, h2, hm]
      | none =>
        have := dispatchContinue_ops_nonleader s env.dispatchOpErr
        simpa [ModeContinue, h1, h2, hm, hf] using this

/-- The tail of ModeAbide entered with an empty prefix and the feature
flag disabled on the loop environments runs no leadership-related
operation. -/
theorem abideMain_no_leader_ops (sSnap cur : State) (env : AbideEnv)
    (ascript : List AliveStep) (denv : DyingEnv) (dscript : List DyingStep)
    (hdf : denv.leaderFlag = false) (hds : dyingScriptOKb false dscript = true)
    (hcs : aliveScriptOKb false false cur ascript = true) :
    ((abideMain sSnap cur [] env ascript denv dscript).ops.all nonLeaderOp) = true := by
  unfold abideMain
  cases hcc : env.ranConfigChanged with
  | false =>
    cases env.configOpErr <;>
      simp [hcc, continueAfter, Outcome.withOps, nonLeaderOp, isLeadershipOp,
        leaderSettingsOp, hooks.ConfigChanged]
  | true =>
    cases hst : sSnap.Started with
    | false =>
      cases env.startOpErr <;>
        simp [hcc, hst, continueAfter, Outcome.withOps, nonLeaderOp, isLeadershipOp,
          leaderSettingsOp, hooks.Start]
    | true =>
      cases hss : env.setStatusErr with
      | some e => simp [hcc, hst, hss]
      | none =>
        cases hud : env.unitDyingNow with
        | true =>
          have := modeAbideDyingLoop_no_leader_ops cur denv dscript hdf hds
          simpa [hcc, hst, hss, hud, Outcome.withOps] using this
        | false =>
          have := aliveLoop_no_leader_ops ascript cur denv dscript hdf hds hcs
          simpa [hcc, hst, hss, hud, Outcome.withOps] using this

/-- ModeAbide with the feature flag disabled passes false to the
leader-settings subscription and runs no leadership-related operation. -/
theorem modeAbide_no_leader_ops (s : State) (env : AbideEnv)
    (ascript : List AliveStep) (denv : DyingEnv) (dscript : List DyingStep)
    (hf : env.leaderFlag = false) (hdf : denv.leaderFlag = false)
    (hds : dyingScriptOKb false dscript = true)
    (has : aliveScriptOKb false false s ascript = true) :
    ((ModeAbide s env ascript denv dscript).ops.all nonLeaderOp) = true := by
  by_cases hk : s.Kind = operation.Continue
  · cases hfx : env.fixErr with
    | some e => simp [ModeAbide, hk, hfx]
    | none =>
      have := abideMain_no_leader_ops s s env ascript denv dscript hdf hds has
      simpa [ModeAbide, hk, hfx, hf] using this
  · simp [ModeAbide, hk]

/-- ModeHookError with the feature flag disabled runs no
leadership-related operation on any valid script. -/
theorem modeHookError_no_leader_ops (s : State) (env : HookErrEnv)
    (script : List HookErrStep) (hf : env.leaderFlag = false)
    (hok : hookErrScriptOKb false script = true) :
    ((ModeHookError s env script).ops.all nonLeaderOp) = true := by
  unfold ModeHookError
  by_cases hk : s.Kind = operation.RunHook ∧ s.Step = operation.Step.Pending
  · rcases hk with ⟨hk1, hk2⟩
    cases hh : s.Hook with
    | none => simp [hk1, hk2, hh]
    | some hi =>
      cases hir : hooks.IsRelation hi.Kind with
      | true =>
        cases hrn : env.relNameErr with
        | some e => simp [hk1, hk2, hh, hir, hrn]
        | none =>
          have := hookErrLoop_no_leader_ops script hi s hok
          simpa [hk1, hk2, hh, hir, hrn, hf] using this
      | false =>
        cases hrn : env.relNameErr with
        | some e =>
          have := hookErrLoop_no_leader_ops script hi s hok
          simpa [hk1, hk2, hh, hir, hrn, hf] using this
        | none =>
          have := hookErrLoop_no_leader_ops script hi s hok
          simpa [hk1, hk2, hh, hir, hrn, hf] using this
  · rw [not_and_or] at hk
    rcases hk with hk | hk <;> simp [hk]

/-- C10: with the LeaderElection feature flag disabled, no
accept-leadership, resign-leadership or leader-settings-changed hook
operation is ever run by ModeContinue, ModeAbide (including both its
event loops), the dying loop or ModeHookError, and ModeAbide passes false
to the leader-settings-events subscription. -/
theorem c10_no_leadership_when_disabled (s : State) (cenv : ContinueEnv)
    (aenv : AbideEnv) (denv : DyingEnv) (henv : HookErrEnv)
    (ascript : List AliveStep) (dscript : List DyingStep)
    (hscript : List HookErrStep)
    (hc : cenv.leaderFlag = false) (ha : aenv.leaderFlag = false)
    (hd : denv.leaderFlag = false) (hh : henv.leaderFlag = false)
    (hds : dyingScriptOKb false dscript = true)
    (has : aliveScriptOKb false false s ascript = true)
    (hhs : hookErrScriptOKb false hscript = true) :
    abideWantLS aenv.leaderFlag s = false ∧
    ((ModeContinue s cenv).ops.all nonLeaderOp) = true ∧
    ((ModeAbide s aenv ascript denv dscript).ops.all nonLeaderOp) = true ∧
    ((modeAbideDyingLoop s denv dscript).ops.all nonLeaderOp) = true ∧
    ((ModeHookError s henv hscript).ops.all nonLeaderOp) = true :=
  ⟨by simp [abideWantLS, ha],
   modeContinue_no_leader_ops s cenv hc,
   modeAbide_no_leader_ops s aenv ascript denv dscript ha hd hds has,
   modeAbideDyingLoop_no_leader_ops s denv dscript hd hds,
   modeHookError_no_leader_ops s henv hscript hh hhs⟩

/-- C10 witness: concrete flag-disabled environments and valid scripts
exercising an alive-loop config event, a dying-loop stop, and a HookError
skip resolution. -/
theorem c10_witness :
    abideWantLS false stBase = false ∧
    ((ModeContinue stBase envOff).ops.all nonLeaderOp) = true ∧
    ((ModeAbide stBase ⟨false, none, false, none, true, none, none, none, false⟩
        [⟨.configEvent, false, none⟩] ⟨false, none, none, none, none, none⟩
        [⟨true, .configEvent, false, none⟩]).ops.all nonLeaderOp) = true ∧
    ((ModeHookError stPend ⟨false, none⟩
        [⟨none, .resolvedEvent ("no-hooks"), false, none⟩]).ops.all nonLeaderOp)
      = true :=
  ⟨(c10_no_leadership_when_disabled stBase envOff
      ⟨false, none, false, none, true, none, none, none, false⟩
      ⟨false, none, none, none, none, none⟩ ⟨false, none⟩
      [⟨.configEvent, false, none⟩] [⟨true, .configEvent, false, none⟩]
      [⟨none, .resolvedEvent ("no-hooks"), false, none⟩]
      rfl rfl rfl rfl (by decide) (by decide) (by decide)).1,
   (c10_no_leadership_when_disabled stBase envOff
      ⟨false, none, false, none, true, none, none, none, false⟩
      ⟨false, none, none, none, none, none⟩ ⟨false, none⟩
      [⟨.configEvent, false, none⟩] [⟨true, .configEvent, false, none⟩]
      [⟨none, .resolvedEvent ("no-hooks"), false, none⟩]
      rfl rfl rfl rfl (by decide) (by decide) (by decide)).2.1,
   (c10_no_leadership_when_disabled stBase envOff
      ⟨false, none, false, none, true, none, none, none, false⟩
      ⟨false, none, none, none, none, none⟩ ⟨false, none⟩
      [⟨.configEvent, false, none⟩] [⟨true, .configEvent, false, none⟩]
      [⟨none, .resolvedEvent ("no-hooks"), false, none⟩]
      rfl rfl rfl rfl (by decide) (by decide) (by decide)).2.2.1,
   (c10_no_leadership_when_disabled stPend envOff
      ⟨false, none, false, none, true, none, none, none, false⟩
      ⟨false, none, none, none, none, none⟩ ⟨false, none⟩
      [⟨.configEvent, false, none⟩] [⟨true, .configEvent, false, none⟩]
      [⟨none, .resolvedEvent ("no-hooks"), false, none⟩]
      rfl rfl rfl rfl (by decide) (by decide) (by decide)).2.2.2.2⟩
